import Mathlib

/-!
Verification of the Int3face faucet (`src/faucet.js`, `src/config.js`).

The development shallowly embeds the two source files:
* the configuration object of `config.js` (`mkConfig`, with the three
  environment variables as parameters),
* the `/send/:address` handler and `sendTx` of `faucet.js`
  (`handleSend`, `sendTx`), instrumented with an effect trace so that
  frame conditions ("no chain interaction", "no quota mutation") are
  statements about the produced trace,
* the `/config.json` handler (`configHandler`),
* a small-step interleaving model of concurrent requests
  (`cstep`/`crun` for the quota checks, `ostep`/`orun` for the
  ordering token of the custodial account).

`src/checker.js` (the `FrequencyChecker`) is not part of the excerpt;
its operations are modelled from the spec where indicated.
-/

namespace Faucet

/-- One coin value, as in `config.js` (`{ denom, amount }`). -/
structure Coin where
  denom : String
  amount : String
deriving DecidableEq

/-- The fee object of `config.js` (`{ amount: [...], gas }`). -/
structure FeeConf where
  amount : List Coin
  gas : String
deriving DecidableEq

/-- The `project` block of `config.js`. -/
structure Project where
  name : String
  logo : String
  deployer : String
deriving DecidableEq

/-- The configuration record of `config.js`.  `pfx` is the bech32
address marker `sender.option.prefix`. -/
structure Config where
  port : Nat
  dbPath : String
  project : Project
  chain_id : String
  rpc_endpoint : String
  mnemonic : String
  hdPath : String
  pfx : String
  txAmount : Coin
  txFee : FeeConf
  limitAddress : Nat
  limitIp : Nat
deriving DecidableEq

/-- The concrete configuration built by `config.js`; the three
`process.env` variables (`CHAIN_ID`, `RPC_ENDPOINT`, `FAUCET_MNEMONIC`)
are the parameters, everything else is the literal from the source. -/
def mkConfig (chainId rpc mnem : String) : Config :=
  { port := 3838
    dbPath := "./db/faucet.db"
    project :=
      { name := "Int3face"
        logo := "https://raw.githubusercontent.com/cosmos/chain-registry/master/int3face/images/int3.png"
        deployer := "<a href=\"#\">Int3face</a>" }
    chain_id := chainId
    rpc_endpoint := rpc
    mnemonic := mnem
    hdPath := "m/44'/118'/0'/0/0"
    pfx := "int3"
    txAmount := { denom := "uint3", amount := "1000000" }
    txFee := { amount := [{ denom := "uint3", amount := "1000" }], gas := "200000" }
    limitAddress := 5
    limitIp := 5 }

/-- On-chain account data returned by `client.getAccount`. -/
structure Acct where
  accountNumber : Nat
  sequence : Nat
deriving DecidableEq

/-- The external collaborators of one request: the chain RPC client,
the wallet derivation and the quota store availability.  `chainId` is
what `client.getChainId()` returns, `custodialAddr` the derived faucet
address, `account` the result of `client.getAccount`, `broadcastOk`
whether `client.sendTokens` succeeds (returning `broadcastResult`) or
throws (`broadcastErrMsg`), `storeAvailable` whether the quota store
answers (`storeErrMsg` is the error it throws otherwise), `now` the
current instant. -/
structure Env where
  chainId : String
  custodialAddr : String
  account : Option Acct
  broadcastOk : Bool
  broadcastResult : String
  broadcastErrMsg : String
  storeAvailable : Bool
  storeErrMsg : String
  now : Nat

/-- Observable side effects of one request, used to state frame
conditions: reads/writes of the quota store, and the three chain
interactions of `sendTx`. -/
inductive Effect where
  | getChainId
  | getAccount (addr : String)
  | broadcast (sender recipient : String) (amount : Coin) (fee : FeeConf)
      (accountNumber sequence : Nat)
  | quotaRead (key : String)
  | quotaWrite (key : String)
deriving DecidableEq

/-- Chain interactions among the effects. -/
def isChainEffect : Effect → Bool
  | Effect.getChainId => true
  | Effect.getAccount _ => true
  | Effect.broadcast _ _ _ _ _ _ => true
  | _ => false

/-- Broadcast attempts among the effects. -/
def isBroadcast : Effect → Bool
  | Effect.broadcast _ _ _ _ _ _ => true
  | _ => false

/-- Quota store state.  Modelled from the spec: `src/checker.js` is not
under `src/`; per §4.1/§6 the store keeps, per subject key, the ordered
list of counted event instants.  `faucet.js` calls `checker.update`
with a bare key (address or ip alike), so a single keyspace is used. -/
abbrev QuotaState := String → List Nat

/-- The 24h lookback window, in milliseconds (spec §4.1). -/
def windowMs : Nat := 86400000

/-- Whether a recorded instant still lies in the lookback window.
Modelled from the spec (§4.1): entries older than the window do not
count toward the limit. -/
def inWindow (now t : Nat) : Bool := decide (now - windowMs ≤ t)

/-- The admission check.  Modelled from the spec (§4.1): drop
timestamps older than the window and allow iff the remaining count is
below the limit.  `faucet.js` calls `checkAddress`/`checkIp` separately
from `update`, so the check does not itself record the event. -/
def checkKey (lim : Nat) (st : QuotaState) (now : Nat) (key : String) : Bool :=
  decide (((st key).filter (inWindow now)).length < lim)

/-- The event-recording update.  Modelled from the spec (§3, §4.1):
append the current instant to the subject's record.  Called by
`faucet.js` as `checker.update(key)`. -/
def updateKey (st : QuotaState) (now : Nat) (key : String) : QuotaState :=
  fun k => if k = key then st k ++ [now] else st k

/-- JavaScript's `String.prototype.startsWith`, over the character
sequences of the strings. -/
def jsStartsWith (s p : String) : Bool := p.toList.isPrefixOf s.toList

/-- The error-wrapping of `sendTx`'s catch block (`faucet.js` 199-205). -/
def wrapErr (recipient msg : String) : String :=
  "Transaction failed for recipient " ++ recipient ++ ": " ++ msg

/-- The substring the `/send` handler matches on errors
(`faucet.js` line 107). -/
def needle : String := "does not exist on chain"

/-- The `sendTx` function of `faucet.js` (lines 137-206): check the
chain id, fetch the custodial account, validate the configured amount
and fee (in JS only an empty string is falsy there; `fee.amount` is an
array and arrays are always truthy, so only `fee.gas` can fail), then
broadcast one transfer of the configured amount and fee with the
fetched `(accountNumber, sequence)`.  Any error is rewrapped by the
catch block. -/
def sendTx (c : Config) (e : Env) (recipient : String) :
    Except String String × List Effect :=
  if e.chainId ≠ c.chain_id then
    (Except.error (wrapErr recipient
      ("Chain-id mismatch: expected " ++ c.chain_id ++ ", got " ++ e.chainId)),
     [Effect.getChainId])
  else
    match e.account with
    | none =>
        (Except.error (wrapErr recipient
          ("Account [" ++ e.custodialAddr ++ "] does not exist on the blockchain.")),
         [Effect.getChainId, Effect.getAccount e.custodialAddr])
    | some a =>
        if c.txAmount.amount = "" ∨ c.txAmount.denom = "" then
          (Except.error (wrapErr recipient "Invalid transaction amount format in configuration."),
           [Effect.getChainId, Effect.getAccount e.custodialAddr])
        else if c.txFee.gas = "" then
          (Except.error (wrapErr recipient "Invalid transaction fee format in configuration."),
           [Effect.getChainId, Effect.getAccount e.custodialAddr])
        else if e.broadcastOk then
          (Except.ok e.broadcastResult,
           [Effect.getChainId, Effect.getAccount e.custodialAddr,
            Effect.broadcast e.custodialAddr recipient c.txAmount c.txFee
              a.accountNumber a.sequence])
        else
          (Except.error (wrapErr recipient e.broadcastErrMsg),
           [Effect.getChainId, Effect.getAccount e.custodialAddr,
            Effect.broadcast e.custodialAddr recipient c.txAmount c.txFee
              a.accountNumber a.sequence])

/-- An HTTP response: status code and body. -/
structure Resp where
  status : Nat
  body : String
deriving DecidableEq

/-- The catch block of the `/send/:address` handler (`faucet.js`
103-113): a 400 if the error message contains `needle`, otherwise a
generic 500. -/
def catchResp (address msg : String) : Resp :=
  if needle.toList <:+: msg.toList then
    { status := 400
      body := "Address [" ++ address ++ "] does not exist on the blockchain. Please create the account first." }
  else
    { status := 500, body := "Failed to send tokens. Please contact the administrator." }

/-- The `/send/:address` handler of `faucet.js` (lines 68-114):
validate the address, run the two admission checks (`checkAddress`
throws when the store is down, so `checkIp` is then never reached and
the catch block answers), deny with 429 unless both allow, record the
ip, attempt `sendTx`, and record the address only after a successful
send.  Returns the response, the final quota state and the effect
trace. -/
def handleSend (c : Config) (e : Env) (st : QuotaState) (address ip : String) :
    Resp × QuotaState × List Effect :=
  if address = "" then
    ({ status := 400, body := "Address is required." }, st, [])
  else if ¬ jsStartsWith address c.pfx then
    ({ status := 400, body := "Address [" ++ address ++ "] is not supported." }, st, [])
  else if ¬ e.storeAvailable then
    (catchResp address e.storeErrMsg, st, [Effect.quotaRead address])
  else
    let okA := checkKey c.limitAddress st e.now address
    let okI := checkKey c.limitIp st e.now ip
    if ¬ (okA && okI) then
      ({ status := 429, body := "You have requested tokens too often. Please try again later." },
       st, [Effect.quotaRead address, Effect.quotaRead ip])
    else
      let st1 := updateKey st e.now ip
      match sendTx c e address with
      | (Except.ok r, tr) =>
          ({ status := 200, body := r }, updateKey st1 e.now address,
           [Effect.quotaRead address, Effect.quotaRead ip, Effect.quotaWrite ip]
             ++ tr ++ [Effect.quotaWrite address])
      | (Except.error m, tr) =>
          (catchResp address m, st1,
           [Effect.quotaRead address, Effect.quotaRead ip, Effect.quotaWrite ip] ++ tr)

/-- The empty quota store. -/
def emptyQS : QuotaState := fun _ => []

/-- A quota store in which every subject already has five events at
instant 0. -/
def stFive : QuotaState := fun _ => List.replicate 5 0

/-- A fully healthy environment, used to instantiate theorems with
hypotheses at concrete inputs. -/
def wEnv : Env :=
  { chainId := "i3"
    custodialAddr := "int3sender"
    account := some { accountNumber := 7, sequence := 3 }
    broadcastOk := true
    broadcastResult := "tx1"
    broadcastErrMsg := "broadcast rejected"
    storeAvailable := true
    storeErrMsg := "store down"
    now := 0 }

/-- The configuration made by `config.js` with the environment of
`wEnv`, used to instantiate theorems. -/
def cfgW : Config := mkConfig "i3" "r" "m"

/-- Pointwise update of a function, for per-request bookkeeping in the
interleaving models. -/
def fupd {α : Type} (f : Nat → α) (i : Nat) (a : α) : Nat → α :=
  fun j => if j = i then a else f j

/-- One concurrent `/send` request: its recipient and caller origin. -/
structure CReq where
  addr : String
  ip : String

/-- State of the interleaved execution of many `/send` requests: the
shared quota store, each request's program counter and admission-check
results, and the log of address-admission outcomes `(key, allowed)`. -/
structure CSys where
  qs : QuotaState
  pc : Nat → Nat
  okA : Nat → Bool
  okI : Nat → Bool
  checkLog : List (String × Bool)

/-- One atomic step of request `i`, at the `await` granularity of the
handler (`faucet.js` lines 84, 85, 92, 95, 99): program counter 0 runs
the address check, 1 the ip check, 2 denies unless both allowed and
otherwise records the ip, 3 broadcasts (assumed successful here), 4
records the address.  A finished or denied request (counter 5) does
nothing. -/
def cstep (limA limI : Nat) (req : Nat → CReq) (now : Nat) (s : CSys) (i : Nat) : CSys :=
  match s.pc i with
  | 0 =>
      { s with okA := fupd s.okA i (checkKey limA s.qs now (req i).addr)
               checkLog := s.checkLog ++ [((req i).addr, checkKey limA s.qs now (req i).addr)]
               pc := fupd s.pc i 1 }
  | 1 =>
      { s with okI := fupd s.okI i (checkKey limI s.qs now (req i).ip)
               pc := fupd s.pc i 2 }
  | 2 =>
      if s.okA i && s.okI i then
        { s with qs := updateKey s.qs now (req i).ip, pc := fupd s.pc i 3 }
      else
        { s with pc := fupd s.pc i 5 }
  | 3 => { s with pc := fupd s.pc i 4 }
  | 4 => { s with qs := updateKey s.qs now (req i).addr, pc := fupd s.pc i 5 }
  | _ => s

/-- Run a schedule (a list of request indices) of interleaved steps. -/
def crun (limA limI : Nat) (req : Nat → CReq) (now : Nat) (s : CSys) (sched : List Nat) :
    CSys :=
  sched.foldl (cstep limA limI req now) s

/-- The initial system: empty store, every request at its first step. -/
def initSys : CSys :=
  { qs := emptyQS, pc := fun _ => 0, okA := fun _ => false, okI := fun _ => false,
    checkLog := [] }

/-- Number of `true` address-admission outcomes logged for a key. -/
def truesFor (k : String) (s : CSys) : Nat :=
  (s.checkLog.filter (fun p => p.1 == k && p.2)).length

/-- The quota store after `n` sequential (non-interleaved) runs of the
real handler for the same recipient and origin, every broadcast
succeeding. -/
def seqStates : Nat → QuotaState
  | 0 => emptyQS
  | n + 1 => (handleSend cfgW wEnv (seqStates n) "int3aaa" "ip1").2.1

/-- How many of the first `n` sequential requests saw their
address-admission check return `true`. -/
def seqTrues (n : Nat) : Nat :=
  ((List.range n).filter
    (fun k => checkKey cfgW.limitAddress (seqStates k) wEnv.now "int3aaa")).length

/-- Per-dispatch local state of the ordering-token model: program
counter (0 = about to fetch the account, 1 = about to broadcast,
2 = done) and the sequence fetched by `client.getAccount`. -/
structure DSt where
  pc : Nat
  tok : Nat

/-- Shared state of the ordering-token model: the custodial account's
current on-chain sequence and each dispatch's local state. -/
structure OSys where
  chainSeq : Nat
  loc : Nat → DSt

/-- One atomic step of dispatch `i` in `sendTx` (`faucet.js` 158-196):
first fetch the account and hold its current sequence, then broadcast
with the held `(accountNumber, sequence)`.  Modelled from the spec for
the chain collaborator (excluded from the excerpt): the chain accepts a
broadcast only when its ordering token is exactly the next expected one
and then advances the sequence by one (glossary "Ordering token", §6);
`netOk i` lets a broadcast fail externally even with a matching token,
in which case the sequence is not consumed.  Returns the new state and
the token of the successful broadcast, if any. -/
def ostep (netOk : Nat → Bool) (aN : Nat) (s : OSys) (i : Nat) : OSys × List (Nat × Nat) :=
  match (s.loc i).pc with
  | 0 => ({ s with loc := fupd s.loc i { pc := 1, tok := s.chainSeq } }, [])
  | 1 =>
      if (s.loc i).tok = s.chainSeq ∧ netOk i then
        ({ chainSeq := s.chainSeq + 1, loc := fupd s.loc i { pc := 2, tok := (s.loc i).tok } },
         [(aN, (s.loc i).tok)])
      else
        ({ s with loc := fupd s.loc i { pc := 2, tok := (s.loc i).tok } }, [])
  | _ => (s, [])

/-- Run a schedule of interleaved dispatch steps, collecting the tokens
of the successful broadcasts in order. -/
def orun (netOk : Nat → Bool) (aN : Nat) (s : OSys) : List Nat → OSys × List (Nat × Nat)
  | [] => (s, [])
  | i :: rest =>
      let p := ostep netOk aN s i
      let q := orun netOk aN p.1 rest
      (q.1, p.2 ++ q.2)

/-- The character list of the substring the handler matches. -/
def needleL : List Char := needle.toList

/-- The fixed first segment of `sendTx`'s rewrapped error message. -/
def wrapPre : List Char := "Transaction failed for recipient ".toList

/-- The separator the rewrapping inserts after the recipient. -/
def colonSp : List Char := ": ".toList

/-- The fixed segment opening the account-absence message. -/
def acctOpen : List Char := "Account [".toList

/-- The fixed last segment of the account-absence message. -/
def acctSuf : List Char := "] does not exist on the blockchain.".toList

/-- External collaborators of the `/config.json` handler: the derived
faucet address and the balances reported by the chain. -/
structure CEnv where
  derivedAddr : String
  balances : List Coin

/-- The `/config.json` handler of `faucet.js` (lines 25-62), success
path: spread the `project` config, add the derived faucet address and
the formatted balance of the configured denomination (JS `||` picks
`"uint3"` only for an empty denom), and answer with exactly those
fields. -/
def configHandler (c : Config) (env : CEnv) : List (String × String) :=
  let denom := if c.txAmount.denom = "" then "uint3" else c.txAmount.denom
  let bal :=
    match env.balances.find? (fun b => b.denom == denom) with
    | some b => b.amount ++ " " ++ denom.toUpper
    | none => "0 " ++ denom.toUpper
  [("name", c.project.name), ("logo", c.project.logo), ("deployer", c.project.deployer),
   ("faucetAddress", env.derivedAddr), ("faucetBalance", bal)]

/-- Claim C4: a request whose recipient lacks the configured address
marker fails with a 400 and produces no effect at all: the quota state
is returned unchanged and the effect trace is empty (no quota read or
write, no chain interaction). -/
theorem C4_invalid_recipient_no_effects (c : Config) (e : Env) (st : QuotaState)
    (address ip : String) (h : jsStartsWith address c.pfx = false) :
    handleSend c e st address ip =
      ({ status := 400,
         body := if address = "" then "Address is required."
                 else "Address [" ++ address ++ "] is not supported." }, st, []) := by
  by_cases ha : address = ""
  · simp [handleSend, ha]
  · simp [handleSend, ha, h]

/-- Witness for C4 at a concrete wrong-marker address. -/
theorem C4_witness :
    jsStartsWith "cosmos1xyz" (mkConfig "i3" "r" "m").pfx = false ∧
    handleSend (mkConfig "i3" "r" "m") wEnv emptyQS "cosmos1xyz" "ip1" =
      ({ status := 400,
         body := if ("cosmos1xyz" : String) = "" then "Address is required."
                 else "Address [" ++ "cosmos1xyz" ++ "] is not supported." }, emptyQS, []) :=
  ⟨by decide,
   C4_invalid_recipient_no_effects (mkConfig "i3" "r" "m") wEnv emptyQS "cosmos1xyz" "ip1"
     (by decide)⟩

/-- Claim C5: a syntactically valid request for which either admission
check denies is answered with 429, the quota state is unchanged, and
the trace holds only the two quota reads — in particular no chain
interaction, so the dispatch step is reached only when both checks
allow. -/
theorem C5_deny_no_dispatch (c : Config) (e : Env) (st : QuotaState) (address ip : String)
    (h0 : address ≠ "") (h1 : jsStartsWith address c.pfx = true)
    (h2 : e.storeAvailable = true)
    (h3 : (checkKey c.limitAddress st e.now address && checkKey c.limitIp st e.now ip) = false) :
    handleSend c e st address ip =
      ({ status := 429, body := "You have requested tokens too often. Please try again later." },
       st, [Effect.quotaRead address, Effect.quotaRead ip]) := by
  simp [handleSend, h0, h1, h2, h3]

/-- Witness for C5: with five events already recorded for every
subject, the address check denies and the request is answered 429. -/
theorem C5_witness :
    ("int3aaa" : String) ≠ "" ∧
    (checkKey (mkConfig "i3" "r" "m").limitAddress stFive wEnv.now "int3aaa" &&
      checkKey (mkConfig "i3" "r" "m").limitIp stFive wEnv.now "ip1") = false ∧
    handleSend (mkConfig "i3" "r" "m") wEnv stFive "int3aaa" "ip1" =
      ({ status := 429, body := "You have requested tokens too often. Please try again later." },
       stFive, [Effect.quotaRead "int3aaa", Effect.quotaRead "ip1"]) :=
  ⟨by decide, by decide,
   C5_deny_no_dispatch (mkConfig "i3" "r" "m") wEnv stFive "int3aaa" "ip1"
     (by decide) (by decide) (by decide) (by decide)⟩

/-- Claim C6: when the connected chain reports an identity different
from the configured one, `sendTx` fails with the mismatch error and its
trace holds only the identity query: the account is never fetched and
no transfer is constructed or broadcast. -/
theorem C6_chain_mismatch (c : Config) (e : Env) (r : String)
    (h : e.chainId ≠ c.chain_id) :
    sendTx c e r =
      (Except.error (wrapErr r
        ("Chain-id mismatch: expected " ++ c.chain_id ++ ", got " ++ e.chainId)),
       [Effect.getChainId]) := by
  simp [sendTx, h]

/-- Witness for C6 at a concrete mismatched chain identity. -/
theorem C6_witness :
    ({ wEnv with chainId := "other" } : Env).chainId ≠ (mkConfig "i3" "r" "m").chain_id ∧
    sendTx (mkConfig "i3" "r" "m") { wEnv with chainId := "other" } "int3aaa" =
      (Except.error (wrapErr "int3aaa"
        ("Chain-id mismatch: expected " ++ (mkConfig "i3" "r" "m").chain_id ++ ", got " ++
          ({ wEnv with chainId := "other" } : Env).chainId)),
       [Effect.getChainId]) :=
  ⟨by decide,
   C6_chain_mismatch (mkConfig "i3" "r" "m") { wEnv with chainId := "other" } "int3aaa"
     (by decide)⟩

/-- Claim C7: when the quota store is unavailable the admission check
throws, the handler's catch block answers with a failure status (400 or
500, never 200), the quota state is unchanged and no chain interaction
— in particular no broadcast — occurs: the request fails closed. -/
theorem C7_fails_closed (c : Config) (e : Env) (st : QuotaState) (address ip : String)
    (h0 : address ≠ "") (h1 : jsStartsWith address c.pfx = true)
    (h2 : e.storeAvailable = false) :
    ((handleSend c e st address ip).1.status = 400 ∨
      (handleSend c e st address ip).1.status = 500) ∧
    (handleSend c e st address ip).2.1 = st ∧
    (handleSend c e st address ip).2.2 = [Effect.quotaRead address] := by
  have hh : handleSend c e st address ip =
      (catchResp address e.storeErrMsg, st, [Effect.quotaRead address]) := by
    simp [handleSend, h0, h1, h2]
  rw [hh]
  refine ⟨?_, rfl, rfl⟩
  by_cases hc : needle.data <:+: e.storeErrMsg.data
  · left; simp [catchResp, hc]
  · right; simp [catchResp, hc]

/-- Witness for C7 at a concrete unavailable store. -/
theorem C7_witness :
    ("int3aaa" : String) ≠ "" ∧
    ({ wEnv with storeAvailable := false } : Env).storeAvailable = false ∧
    (((handleSend (mkConfig "i3" "r" "m") { wEnv with storeAvailable := false } emptyQS
        "int3aaa" "ip1").1.status = 400 ∨
      (handleSend (mkConfig "i3" "r" "m") { wEnv with storeAvailable := false } emptyQS
        "int3aaa" "ip1").1.status = 500) ∧
    (handleSend (mkConfig "i3" "r" "m") { wEnv with storeAvailable := false } emptyQS
        "int3aaa" "ip1").2.1 = emptyQS ∧
    (handleSend (mkConfig "i3" "r" "m") { wEnv with storeAvailable := false } emptyQS
        "int3aaa" "ip1").2.2 = [Effect.quotaRead "int3aaa"]) :=
  ⟨by decide, by decide,
   C7_fails_closed (mkConfig "i3" "r" "m") { wEnv with storeAvailable := false } emptyQS
     "int3aaa" "ip1" (by decide) (by decide) (by decide)⟩

/-- A successful `sendTx` run necessarily found the account, had a
successful broadcast, and its trace is exactly the identity query, the
account fetch, and one broadcast of the configured amount and fee from
the custodial address to the recipient, with the fetched ordering
token. -/
theorem sendTx_ok_cases (c : Config) (e : Env) (r res : String) (tr : List Effect)
    (h : sendTx c e r = (Except.ok res, tr)) :
    ∃ a, e.account = some a ∧ e.broadcastOk = true ∧ res = e.broadcastResult ∧
      tr = [Effect.getChainId, Effect.getAccount e.custodialAddr,
            Effect.broadcast e.custodialAddr r c.txAmount c.txFee
              a.accountNumber a.sequence] := by
  unfold sendTx at h
  split at h
  · exact absurd h (by simp)
  · split at h
    · exact absurd h (by simp)
    · split at h
      · exact absurd h (by simp)
      · split at h
        · exact absurd h (by simp)
        · split at h
          · rename_i a heq hna hng hbc
            simp only [Prod.mk.injEq, Except.ok.injEq] at h
            exact ⟨a, heq, hbc, h.1.symm, h.2.symm⟩
          · exact absurd h (by simp)

/-- A 200 answer of the handler means `sendTx` succeeded, and the
handler's trace is the two quota reads, the ip write, the `sendTx`
trace and the final address write. -/
theorem handleSend_200 (c : Config) (e : Env) (st : QuotaState) (address ip : String)
    (h200 : (handleSend c e st address ip).1.status = 200) :
    ∃ res tr, sendTx c e address = (Except.ok res, tr) ∧
      (handleSend c e st address ip).2.2 =
        [Effect.quotaRead address, Effect.quotaRead ip, Effect.quotaWrite ip]
          ++ tr ++ [Effect.quotaWrite address] := by
  unfold handleSend at h200 ⊢
  by_cases ha : address = ""
  · rw [if_pos ha] at h200; exact absurd h200 (by simp)
  · rw [if_neg ha] at h200 ⊢
    by_cases hp : ¬ jsStartsWith address c.pfx
    · rw [if_pos hp] at h200; exact absurd h200 (by simp)
    · rw [if_neg hp] at h200 ⊢
      by_cases hs : ¬ e.storeAvailable
      · rw [if_pos hs] at h200
        exact absurd h200 (by simp [catchResp]; split <;> simp)
      · rw [if_neg hs] at h200 ⊢
        by_cases hq : ¬ (checkKey c.limitAddress st e.now address &&
            checkKey c.limitIp st e.now ip)
        · rw [if_pos hq] at h200; exact absurd h200 (by simp)
        · rw [if_neg hq] at h200 ⊢
          rcases hst : sendTx c e address with ⟨err | res, tr⟩
          · exact absurd h200 (by simp [catchResp, hst]; split <;> simp)
          · exact ⟨res, tr, rfl, rfl⟩

/-- Claim C8: whenever the handler answers 200 under the configuration
of `config.js`, the trace holds exactly one broadcast, and it transfers
the fixed `1000000 uint3` with the fixed fee `1000 uint3` and gas
`200000` from the custodial address to the requested recipient — for
any recipient and caller, so the transferred amount never depends on
the request. -/
theorem C8_fixed_transfer (chainId rpc mnem : String) (e : Env) (st : QuotaState)
    (address ip : String)
    (h200 : (handleSend (mkConfig chainId rpc mnem) e st address ip).1.status = 200) :
    ∃ aN sq, ((handleSend (mkConfig chainId rpc mnem) e st address ip).2.2).filter isBroadcast
      = [Effect.broadcast e.custodialAddr address
          { denom := "uint3", amount := "1000000" }
          { amount := [{ denom := "uint3", amount := "1000" }], gas := "200000" } aN sq] := by
  obtain ⟨res, tr, hst, htr⟩ := handleSend_200 (mkConfig chainId rpc mnem) e st address ip h200
  obtain ⟨a, -, -, -, htrace⟩ :=
    sendTx_ok_cases (mkConfig chainId rpc mnem) e address res tr hst
  refine ⟨a.accountNumber, a.sequence, ?_⟩
  rw [htr, htrace]
  simp [isBroadcast, mkConfig]

/-- Witness for C8: a concrete healthy run answers 200 and its only
broadcast carries the configured fixed amount and fee. -/
theorem C8_witness :
    (handleSend (mkConfig "i3" "r" "m") wEnv emptyQS "int3aaa" "ip1").1.status = 200 ∧
    ∃ aN sq,
      ((handleSend (mkConfig "i3" "r" "m") wEnv emptyQS "int3aaa" "ip1").2.2).filter isBroadcast
        = [Effect.broadcast wEnv.custodialAddr "int3aaa"
            { denom := "uint3", amount := "1000000" }
            { amount := [{ denom := "uint3", amount := "1000" }], gas := "200000" } aN sq] :=
  ⟨by decide, C8_fixed_transfer "i3" "r" "m" wEnv emptyQS "int3aaa" "ip1" (by decide)⟩

/-- Claim C10: the successful `/config.json` response consists of
exactly the three project fields plus the derived faucet address and
balance, and it is unchanged under any variation of the sender,
blockchain and limit configuration (given the same externally derived
address and chain balances): the mnemonic and those other configuration
values are never included. -/
theorem C10_no_config_leak (c1 c2 : Config) (env : CEnv)
    (hp : c1.project = c2.project) (ht : c1.txAmount = c2.txAmount) :
    configHandler c1 env = configHandler c2 env ∧
    (configHandler c1 env).map Prod.fst =
      ["name", "logo", "deployer", "faucetAddress", "faucetBalance"] := by
  constructor
  · simp only [configHandler, hp, ht]
  · simp [configHandler]

/-- Witness for C10: two configurations differing in mnemonic, chain
identity, RPC endpoint and limits produce identical responses. -/
theorem C10_witness :
    (mkConfig "i3" "r" "m").project =
      ({ mkConfig "other" "r2" "m2" with limitAddress := 99, limitIp := 7 } : Config).project ∧
    configHandler (mkConfig "i3" "r" "m")
        { derivedAddr := "int3sender", balances := [{ denom := "uint3", amount := "42" }] } =
      configHandler { mkConfig "other" "r2" "m2" with limitAddress := 99, limitIp := 7 }
        { derivedAddr := "int3sender", balances := [{ denom := "uint3", amount := "42" }] } :=
  ⟨by decide,
   (C10_no_config_leak (mkConfig "i3" "r" "m")
     { mkConfig "other" "r2" "m2" with limitAddress := 99, limitIp := 7 }
     { derivedAddr := "int3sender", balances := [{ denom := "uint3", amount := "42" }] }
     (by decide) (by decide)).1⟩

/-- Counterexample to claim C3 as stated: on a run that passes
validation and both admission checks but whose broadcast fails (the
handler answers 500), the recipient-address record is left untouched —
its allowance is NOT reduced — while the caller-origin record does gain
the event. -/
theorem C3_counterexample :
    (handleSend cfgW { wEnv with broadcastOk := false } emptyQS "int3aaa" "ip1").1.status
        = 500 ∧
    (handleSend cfgW { wEnv with broadcastOk := false } emptyQS "int3aaa" "ip1").2.1
        "int3aaa" = [] ∧
    (handleSend cfgW { wEnv with broadcastOk := false } emptyQS "int3aaa" "ip1").2.1
        "ip1" = [0] := by decide

/-- Claim C3 as amended: on an admitted request whose dispatch fails,
the caller-origin quota unit is consumed with no refund, but the
recipient-address quota unit is not consumed — the address record is
only written after a successful broadcast. -/
theorem C3_amended (c : Config) (e : Env) (st : QuotaState) (address ip : String)
    (h0 : address ≠ "") (h1 : jsStartsWith address c.pfx = true)
    (h2 : e.storeAvailable = true)
    (h3 : (checkKey c.limitAddress st e.now address && checkKey c.limitIp st e.now ip) = true)
    (h4 : address ≠ ip) (m : String) (tr : List Effect)
    (h5 : sendTx c e address = (Except.error m, tr)) :
    (handleSend c e st address ip).2.1 ip = st ip ++ [e.now] ∧
    (handleSend c e st address ip).2.1 address = st address ∧
    (handleSend c e st address ip).1.status ≠ 200 := by
  have hh : handleSend c e st address ip =
      (catchResp address m, updateKey st e.now ip,
       [Effect.quotaRead address, Effect.quotaRead ip, Effect.quotaWrite ip] ++ tr) := by
    simp [handleSend, h0, h1, h2, h3, h5]
  rw [hh]
  refine ⟨by simp [updateKey], by simp [updateKey, h4], ?_⟩
  simp only [catchResp]
  split <;> simp

/-- Witness for the amended C3 at a concrete failing broadcast. -/
theorem C3_amended_witness :
    (handleSend cfgW { wEnv with broadcastOk := false } emptyQS "int3aaa" "ip1").2.1 "ip1"
        = emptyQS "ip1" ++ [({ wEnv with broadcastOk := false } : Env).now] ∧
    (handleSend cfgW { wEnv with broadcastOk := false } emptyQS "int3aaa" "ip1").2.1
        "int3aaa" = emptyQS "int3aaa" ∧
    (handleSend cfgW { wEnv with broadcastOk := false } emptyQS "int3aaa" "ip1").1.status
        ≠ 200 :=
  C3_amended cfgW { wEnv with broadcastOk := false } emptyQS "int3aaa" "ip1"
    (by decide) (by decide) (by decide) (by decide) (by decide)
    (wrapErr "int3aaa" "broadcast rejected")
    [Effect.getChainId, Effect.getAccount "int3sender",
     Effect.broadcast "int3sender" "int3aaa" { denom := "uint3", amount := "1000000" }
       { amount := [{ denom := "uint3", amount := "1000" }], gas := "200000" } 7 3]
    rfl

/-- Counterexample to claim C2 as stated: the handler's admission is a
check followed by a separate later update, so under an interleaving in
which six concurrent requests for the same address all run their
admission check before any of them records an event, all six checks
return `true` within one window, although the configured address limit
is five. -/
theorem C2_counterexample :
    cfgW.limitAddress = 5 ∧
    truesFor "int3aaa"
      (crun cfgW.limitAddress cfgW.limitIp (fun _ => { addr := "int3aaa", ip := "ip1" }) 0
        initSys [0, 1, 2, 3, 4, 5]) = 6 := by decide

/-- An instant always lies inside the window that ends at it. -/
theorem inWindow_self (now : Nat) : inWindow now now = true := by
  simp [inWindow, Nat.sub_le]

/-- Filtering a same-instant record by its own window keeps it all. -/
theorem filter_inWindow_replicate (now k : Nat) :
    (List.replicate k now).filter (inWindow now) = List.replicate k now :=
  List.filter_eq_self.mpr (fun a ha => by
    rw [List.eq_of_mem_replicate ha]; exact inWindow_self now)

/-- The admission check on a record of `k` same-instant events is the
comparison of `k` against the limit. -/
theorem checkKey_replicate (lim now k : Nat) (st : QuotaState) (key : String)
    (h : st key = List.replicate k now) :
    checkKey lim st now key = decide (k < lim) := by
  simp [checkKey, h, filter_inWindow_replicate]

/-- Witness for `checkKey_replicate` at a concrete full record. -/
theorem checkKey_replicate_witness :
    stFive "int3aaa" = List.replicate 5 0 ∧ checkKey 5 stFive 0 "int3aaa" = decide (5 < 5) :=
  ⟨rfl, checkKey_replicate 5 0 5 stFive "int3aaa" rfl⟩

/-- After `n` sequential admitted-or-denied runs of the handler, both
subject records hold `min n 5` events: the first five requests are
admitted and recorded, later ones are denied and record nothing. -/
theorem seqStates_spec (n : Nat) :
    seqStates n "int3aaa" = List.replicate (min n 5) 0 ∧
    seqStates n "ip1" = List.replicate (min n 5) 0 := by
  induction n with
  | zero => simp [seqStates, emptyQS]
  | succ n ih =>
    obtain ⟨hA, hI⟩ := ih
    have hckA : checkKey cfgW.limitAddress (seqStates n) wEnv.now "int3aaa"
        = decide (min n 5 < 5) := checkKey_replicate 5 0 (min n 5) (seqStates n) "int3aaa" hA
    have hckI : checkKey cfgW.limitIp (seqStates n) wEnv.now "ip1"
        = decide (min n 5 < 5) := checkKey_replicate 5 0 (min n 5) (seqStates n) "ip1" hI
    have hsend : sendTx cfgW wEnv "int3aaa" =
        (Except.ok "tx1",
         [Effect.getChainId, Effect.getAccount "int3sender",
          Effect.broadcast "int3sender" "int3aaa" { denom := "uint3", amount := "1000000" }
            { amount := [{ denom := "uint3", amount := "1000" }], gas := "200000" } 7 3]) := rfl
    by_cases hn : n < 5
    · have hA2 : checkKey cfgW.limitAddress (seqStates n) wEnv.now "int3aaa" = true := by
        rw [hckA]; simp only [decide_eq_true_eq]; omega
      have hI2 : checkKey cfgW.limitIp (seqStates n) wEnv.now "ip1" = true := by
        rw [hckI]; simp only [decide_eq_true_eq]; omega
      have hrun : (handleSend cfgW wEnv (seqStates n) "int3aaa" "ip1").2.1
          = updateKey (updateKey (seqStates n) wEnv.now "ip1") wEnv.now "int3aaa" := by
        simp +decide [handleSend, hA2, hI2, hsend]
      have hmin : min (n + 1) 5 = min n 5 + 1 := by omega
      constructor
      · show (handleSend cfgW wEnv (seqStates n) "int3aaa" "ip1").2.1 "int3aaa" = _
        rw [hrun, hmin]
        simp +decide [updateKey, hA, List.replicate_succ']
      · show (handleSend cfgW wEnv (seqStates n) "int3aaa" "ip1").2.1 "ip1" = _
        rw [hrun, hmin]
        simp +decide [updateKey, hI, List.replicate_succ']
    · have hA2 : checkKey cfgW.limitAddress (seqStates n) wEnv.now "int3aaa" = false := by
        rw [hckA]; simp only [decide_eq_false_iff_not]; omega
      have hrun : (handleSend cfgW wEnv (seqStates n) "int3aaa" "ip1").2.1 = seqStates n := by
        simp +decide [handleSend, hA2]
      have hmin : min (n + 1) 5 = min n 5 := by omega
      constructor
      · show (handleSend cfgW wEnv (seqStates n) "int3aaa" "ip1").2.1 "int3aaa" = _
        rw [hrun, hmin, hA]
      · show (handleSend cfgW wEnv (seqStates n) "int3aaa" "ip1").2.1 "ip1" = _
        rw [hrun, hmin, hI]

/-- Exactly `min n 5` of the first `n` sequential address-admission
checks return `true`. -/
theorem seqTrues_spec (n : Nat) : seqTrues n = min n 5 := by
  induction n with
  | zero => simp [seqTrues]
  | succ n ih =>
    obtain ⟨hA, -⟩ := seqStates_spec n
    have hckA : checkKey cfgW.limitAddress (seqStates n) wEnv.now "int3aaa"
        = decide (min n 5 < 5) := checkKey_replicate 5 0 (min n 5) (seqStates n) "int3aaa" hA
    simp only [seqTrues] at ih ⊢
    rw [List.range_succ, List.filter_append, List.length_append, ih]
    by_cases hn : n < 5
    · have hfn : checkKey cfgW.limitAddress (seqStates n) wEnv.now "int3aaa" = true := by
        rw [hckA]; simp only [decide_eq_true_eq]; omega
      simp [List.filter_cons, hfn]
      omega
    · have hfn : checkKey cfgW.limitAddress (seqStates n) wEnv.now "int3aaa" = false := by
        rw [hckA]; simp only [decide_eq_false_iff_not]; omega
      simp [List.filter_cons, hfn]
      omega

/-- Claim C2 as amended: admission in the handler is a check followed
by separate later updates, not one atomic operation, and under
concurrent interleaving the limit can be exceeded
(`C2_counterexample`); what does hold is the sequential bound: when
requests for one recipient and one origin run one at a time to
completion with successful broadcasts, the number of address-admission
checks that return `true` within the window never exceeds the
configured address limit. -/
theorem C2_amended_seq_bound (n : Nat) : seqTrues n ≤ cfgW.limitAddress := by
  rw [seqTrues_spec n]
  show min n 5 ≤ 5
  omega

/-- In any interleaving, the successful broadcasts' tokens are exactly
the consecutive sequences starting at the initial on-chain sequence,
with the constant account number; a broadcast succeeds only while
holding the chain's current sequence, which then advances by one. -/
theorem orun_tokens_spec (netOk : Nat → Bool) (aN : Nat) (sched : List Nat) (s : OSys) :
    (orun netOk aN s sched).2.map Prod.snd
      = List.range' s.chainSeq (orun netOk aN s sched).2.length ∧
    (orun netOk aN s sched).2.map Prod.fst
      = List.replicate (orun netOk aN s sched).2.length aN := by
  induction sched generalizing s with
  | nil => simp [orun]
  | cons i rest ih =>
    rcases hpc : (s.loc i).pc with _ | m
    · have hstep : ostep netOk aN s i
          = ({ s with loc := fupd s.loc i { pc := 1, tok := s.chainSeq } }, []) := by
        simp [ostep, hpc]
      have h2 := ih { s with loc := fupd s.loc i { pc := 1, tok := s.chainSeq } }
      simp only [orun, hstep, List.nil_append]
      simpa using h2
    · cases m with
      | zero =>
        by_cases hc : (s.loc i).tok = s.chainSeq ∧ netOk i = true
        · have hstep : ostep netOk aN s i
              = ({ chainSeq := s.chainSeq + 1,
                   loc := fupd s.loc i { pc := 2, tok := (s.loc i).tok } },
                 [(aN, (s.loc i).tok)]) := by
            simp [ostep, hpc, hc]
          obtain ⟨hsnd, hfst⟩ :=
            ih (OSys.mk (s.chainSeq + 1) (fupd s.loc i (DSt.mk 2 (s.loc i).tok)))
          simp only [orun, hstep]
          rw [hc.1] at hsnd hfst
          refine ⟨?_, ?_⟩
          · simp only [List.singleton_append, List.map_cons, List.length_cons,
              List.range'_succ]
            rw [hc.1, hsnd]
          · simp only [List.singleton_append, List.map_cons, List.length_cons,
              List.replicate_succ]
            rw [hc.1, hfst]
        · have hstep : ostep netOk aN s i
              = ({ s with loc := fupd s.loc i { pc := 2, tok := (s.loc i).tok } }, []) := by
            simp [ostep, hpc, hc]
          have h2 := ih { s with loc := fupd s.loc i { pc := 2, tok := (s.loc i).tok } }
          simp only [orun, hstep, List.nil_append]
          simpa using h2
      | succ k =>
        have hstep : ostep netOk aN s i = (s, []) := by
          simp [ostep, hpc]
        have h2 := ih s
        simp only [orun, hstep, List.nil_append]
        simpa using h2

/-- Claim C1: across any number of interleaved dispatches, the ordering
tokens of the successful broadcasts are the constant account number
paired with consecutive sequences starting at the chain's sequence —
so successive successful broadcasts increase by exactly one, and no two
successful broadcasts ever use the same token. -/
theorem C1_ordering_tokens (netOk : Nat → Bool) (aN : Nat) (sched : List Nat) (s : OSys) :
    (orun netOk aN s sched).2.map Prod.snd
      = List.range' s.chainSeq (orun netOk aN s sched).2.length ∧
    (orun netOk aN s sched).2.map Prod.fst
      = List.replicate (orun netOk aN s sched).2.length aN ∧
    (orun netOk aN s sched).2.Nodup := by
  obtain ⟨hsnd, hfst⟩ := orun_tokens_spec netOk aN sched s
  refine ⟨hsnd, hfst, ?_⟩
  have hm : ((orun netOk aN s sched).2.map Prod.snd).Nodup := by
    rw [hsnd]; exact List.nodup_range' _ _
  exact List.Nodup.of_map _ hm

/-- Counterexample to claim C9 as stated: the handler's 400 branch for
account absence IS reachable, because the rewrapped message embeds the
recipient; a recipient that itself contains the matched substring (and
carries the `int3` marker) turns the custodial-account-absence error
into the specific 400 answer instead of the generic 500. -/
theorem C9_counterexample :
    (handleSend cfgW { wEnv with account := none } emptyQS
      "int3does not exist on chain" "ip1").1 =
      { status := 400,
        body := "Address [int3does not exist on chain] does not exist on the blockchain. Please create the account first." } := by
  decide

/-- An infix of a concatenation lies in the left part, lies in the
right part, or splits into a nonempty suffix of the left part and a
nonempty prefix of the right part. -/
theorem infix_append_cases {α : Type} {n : List α} (x y : List α) (h : n <:+: x ++ y) :
    n <:+: x ∨ n <:+: y ∨
      ∃ k, 0 < k ∧ k < n.length ∧ n.take k <:+ x ∧ n.drop k <+: y := by
  obtain ⟨u, v, huv⟩ := h
  by_cases h1 : u.length + n.length ≤ x.length
  · left
    have hx : (u ++ n ++ v).take x.length = x := by
      rw [huv]; exact List.take_left x y
    rw [List.append_assoc, List.take_append_eq_append_take] at hx
    rw [List.take_of_length_le (by omega : u.length ≤ x.length)] at hx
    rw [List.take_append_eq_append_take] at hx
    rw [List.take_of_length_le (by omega : n.length ≤ x.length - u.length)] at hx
    exact ⟨u, v.take (x.length - u.length - n.length), by rw [List.append_assoc]; exact hx⟩
  · by_cases h2 : x.length ≤ u.length
    · right; left
      have hy : (u ++ n ++ v).drop x.length = y := by
        rw [huv]; exact List.drop_left x y
      rw [List.append_assoc, List.drop_append_eq_append_drop] at hy
      rw [(by omega : x.length - u.length = 0), List.drop_zero] at hy
      exact ⟨u.drop x.length, v, by rw [List.append_assoc]; exact hy⟩
    · right; right
      refine ⟨x.length - u.length, by omega, by omega, ?_, ?_⟩
      · have hx : (u ++ n ++ v).take x.length = x := by
          rw [huv]; exact List.take_left x y
        rw [List.append_assoc, List.take_append_eq_append_take] at hx
        rw [List.take_of_length_le (by omega : u.length ≤ x.length)] at hx
        rw [List.take_append_eq_append_take] at hx
        rw [(by omega : x.length - u.length - n.length = 0), List.take_zero,
          List.append_nil] at hx
        exact ⟨u, hx⟩
      · have hy : (u ++ n ++ v).drop x.length = y := by
          rw [huv]; exact List.drop_left x y
        rw [List.append_assoc, List.drop_append_eq_append_drop] at hy
        rw [List.drop_eq_nil_of_le (by omega : u.length ≤ x.length), List.nil_append] at hy
        rw [List.drop_append_eq_append_drop] at hy
        rw [(by omega : x.length - u.length - n.length = 0), List.drop_zero] at hy
        exact ⟨v, hy⟩

/-- A nonempty prefix shares its head with the list it prefixes. -/
theorem prefix_head_eq {α : Type} {p l : List α} (h : p <+: l) (hne : p ≠ []) :
    p.head? = l.head? := by
  obtain ⟨t, ht⟩ := h
  cases p with
  | nil => exact absurd rfl hne
  | cons a as => rw [← ht]; rfl

/-- The rewrapped account-absence message contains the handler's
matched substring only if the recipient or the custodial address
contributes it: the needle never lies in the fixed segments, and it
cannot straddle a boundary, because no nonempty prefix of the needle is
a suffix of a fixed segment that precedes a variable part, and the
fixed segments that follow a variable part open with a character
(a colon or a closing bracket) that the needle does not contain. -/
theorem needle_not_infix_msg (r a : List Char)
    (hr : ¬ needleL <:+: r) (ha : ¬ needleL <:+: a) :
    ¬ needleL <:+: wrapPre ++ (r ++ (colonSp ++ (acctOpen ++ (a ++ acctSuf)))) := by
  intro h
  have hlen : needleL.length = 23 := by decide
  rcases infix_append_cases wrapPre (r ++ (colonSp ++ (acctOpen ++ (a ++ acctSuf)))) h
    with h1 | h1 | h1
  · exact absurd h1 (by decide)
  · rcases infix_append_cases r (colonSp ++ (acctOpen ++ (a ++ acctSuf))) h1
      with h2 | h2 | h2
    · exact hr h2
    · rcases infix_append_cases colonSp (acctOpen ++ (a ++ acctSuf)) h2 with h3 | h3 | h3
      · exact absurd h3 (by decide)
      · rcases infix_append_cases acctOpen (a ++ acctSuf) h3 with h4 | h4 | h4
        · exact absurd h4 (by decide)
        · rcases infix_append_cases a acctSuf h4 with h5 | h5 | h5
          · exact ha h5
          · exact absurd h5 (by decide)
          · obtain ⟨k, hk0, hkn, -, hdrop⟩ := h5
            have hne : needleL.drop k ≠ [] := by
              intro hx; rw [List.drop_eq_nil_iff] at hx; omega
            have hh := prefix_head_eq hdrop hne
            rcases hdk : needleL.drop k with _ | ⟨c, t⟩
            · exact hne hdk
            · rw [hdk] at hh
              have hsuf : acctSuf.head? = some ']' := by decide
              rw [hsuf] at hh
              have hc : c = ']' := by injection hh
              have hcm : c ∈ needleL :=
                List.mem_of_mem_drop (by rw [hdk]; exact List.mem_cons_self c t)
              rw [hc] at hcm
              exact absurd hcm (by decide)
        · obtain ⟨k, hk0, hkn, htake, -⟩ := h4
          have S4 : ∀ j : Fin 23, j.val = 0 ∨ ¬ (needleL.take j.val <:+ acctOpen) := by
            decide
          rcases S4 ⟨k, by omega⟩ with hz | hns
          · have hz2 : k = 0 := hz
            omega
          · exact hns htake
      · obtain ⟨k, hk0, hkn, -, hdrop⟩ := h3
        have hne : needleL.drop k ≠ [] := by
          intro hx; rw [List.drop_eq_nil_iff] at hx; omega
        have hh := prefix_head_eq hdrop hne
        rcases hdk : needleL.drop k with _ | ⟨c, t⟩
        · exact hne hdk
        · rw [hdk] at hh
          have hop : (acctOpen ++ (a ++ acctSuf)).head? = some 'A' := rfl
          rw [hop] at hh
          have hc : c = 'A' := by injection hh
          have hcm : c ∈ needleL :=
            List.mem_of_mem_drop (by rw [hdk]; exact List.mem_cons_self c t)
          rw [hc] at hcm
          exact absurd hcm (by decide)
    · obtain ⟨k, hk0, hkn, -, hdrop⟩ := h2
      have hne : needleL.drop k ≠ [] := by
        intro hx; rw [List.drop_eq_nil_iff] at hx; omega
      have hh := prefix_head_eq hdrop hne
      rcases hdk : needleL.drop k with _ | ⟨c, t⟩
      · exact hne hdk
      · rw [hdk] at hh
        have hop : (colonSp ++ (acctOpen ++ (a ++ acctSuf))).head? = some ':' := rfl
        rw [hop] at hh
        have hc : c = ':' := by injection hh
        have hcm : c ∈ needleL :=
          List.mem_of_mem_drop (by rw [hdk]; exact List.mem_cons_self c t)
        rw [hc] at hcm
        exact absurd hcm (by decide)
  · obtain ⟨k, hk0, hkn, htake, -⟩ := h1
    have S1 : ∀ j : Fin 23, j.val = 0 ∨ ¬ (needleL.take j.val <:+ wrapPre) := by decide
    rcases S1 ⟨k, by omega⟩ with hz | hns
    · have hz2 : k = 0 := hz
      omega
    · exact hns htake

/-- Claim C9 as amended: for every recipient and custodial address
that do not themselves contain the substring "does not exist on chain",
the account-absence error ("does not exist on the blockchain",
rewrapped) never matches the handler's substring test, so account
absence is returned to the caller as the generic 500 failure; a
recipient containing the substring makes the 400 branch reachable
(`C9_counterexample`). -/
theorem C9_amended (c : Config) (e : Env) (st : QuotaState) (address ip : String)
    (h0 : address ≠ "") (h1 : jsStartsWith address c.pfx = true)
    (h2 : e.storeAvailable = true)
    (h3 : (checkKey c.limitAddress st e.now address && checkKey c.limitIp st e.now ip) = true)
    (hchain : e.chainId = c.chain_id) (hacc : e.account = none)
    (hr : ¬ needleL <:+: address.toList)
    (hcu : ¬ needleL <:+: e.custodialAddr.toList) :
    (handleSend c e st address ip).1 =
      { status := 500, body := "Failed to send tokens. Please contact the administrator." } := by
  have hsend : sendTx c e address =
      (Except.error (wrapErr address
        ("Account [" ++ e.custodialAddr ++ "] does not exist on the blockchain.")),
       [Effect.getChainId, Effect.getAccount e.custodialAddr]) := by
    simp [sendTx, hchain, hacc]
  have heq : (wrapErr address
      ("Account [" ++ e.custodialAddr ++ "] does not exist on the blockchain.")).toList
      = wrapPre ++ (address.toList ++ (colonSp ++ (acctOpen ++ (e.custodialAddr.toList ++ acctSuf)))) := by
    simp [wrapErr, wrapPre, colonSp, acctOpen, acctSuf, String.toList, List.append_assoc]
  have hmsg : ¬ (needle.toList <:+: (wrapErr address
      ("Account [" ++ e.custodialAddr ++ "] does not exist on the blockchain.")).toList) := by
    intro hx
    rw [heq] at hx
    exact needle_not_infix_msg address.toList e.custodialAddr.toList hr hcu hx
  have hfin : handleSend c e st address ip =
      (catchResp address (wrapErr address
        ("Account [" ++ e.custodialAddr ++ "] does not exist on the blockchain.")),
       updateKey st e.now ip,
       [Effect.quotaRead address, Effect.quotaRead ip, Effect.quotaWrite ip] ++
         [Effect.getChainId, Effect.getAccount e.custodialAddr]) := by
    simp [handleSend, h0, h1, h2, h3, hsend]
  rw [hfin]
  show catchResp address _ = _
  unfold catchResp
  rw [if_neg hmsg]

/-- Witness for the amended C9: a benign recipient with an absent
custodial account receives the generic 500. -/
theorem C9_amended_witness :
    (handleSend cfgW { wEnv with account := none } emptyQS "int3aaa" "ip1").1 =
      { status := 500, body := "Failed to send tokens. Please contact the administrator." } :=
  C9_amended cfgW { wEnv with account := none } emptyQS "int3aaa" "ip1"
    (by decide) (by decide) (by decide) (by decide) rfl rfl
    (by decide) (by decide)

end Faucet
